import Mathlib

/-!
# Verification of the gobark Bark push-notification client

A shallow embedding of `bark.go` (package `gobark`).  Go strings are
byte sequences, so we model them as `List Nat` (each element a byte value);
`bytes` converts an ASCII Lean string literal to its byte list.  The escaping
functions follow Go's `net/url` (`PathEscape` = `escape(s, encodePathSegment)`,
`QueryEscape` = `escape(s, encodeQueryComponent)`, `shouldEscape`,
`Values.Set`, `Values.Encode`) byte for byte.
-/

set_option autoImplicit false

namespace Gobark

/-- A Go string, as its sequence of byte values. -/
abbrev GoStr := List Nat

/-- Byte list of an ASCII Lean string literal (every character below 128). -/
def bytes (s : String) : GoStr := s.data.map Char.toNat

/-- `'a' <= c && c <= 'z' || 'A' <= c && c <= 'Z' || '0' <= c && c <= '9'`,
the alphanumeric test opening `net/url.shouldEscape`. -/
def isAlnumByte (c : Nat) : Bool :=
  (97 ≤ c && c ≤ 122) || (65 ≤ c && c ≤ 90) || (48 ≤ c && c ≤ 57)

/-- `net/url.shouldEscape(c, encodePathSegment)`: alphanumerics and the
unreserved marks `- _ . ~` are kept; of the reserved set
`$ & + , / : ; = ? @` only `/ ; , ?` are escaped; everything else is
escaped. -/
def shouldEscapePathSegment (c : Nat) : Bool :=
  if isAlnumByte c then false
  else if c = 45 || c = 95 || c = 46 || c = 126 then false
  else if c = 36 || c = 38 || c = 43 || c = 44 || c = 47 || c = 58 ||
          c = 59 || c = 61 || c = 63 || c = 64 then
    c = 47 || c = 59 || c = 44 || c = 63
  else true

/-- `net/url.shouldEscape(c, encodeQueryComponent)`: only alphanumerics and
`- _ . ~` are kept, every reserved character is escaped. -/
def shouldEscapeQueryComponent (c : Nat) : Bool :=
  if isAlnumByte c then false
  else if c = 45 || c = 95 || c = 46 || c = 126 then false
  else true

/-- `upperhex[n]` for `n < 16`, the digit table `"0123456789ABCDEF"`. -/
def upperhexDigit (n : Nat) : Nat :=
  if n < 10 then 48 + n else 55 + n

/-- `net/url.PathEscape`: each byte that `shouldEscape(c, encodePathSegment)`
selects becomes `%` followed by two upper-case hex digits. -/
def pathEscape : GoStr → GoStr
  | [] => []
  | c :: rest =>
    (if shouldEscapePathSegment c then
      [37, upperhexDigit (c / 16), upperhexDigit (c % 16)]
    else [c]) ++ pathEscape rest

/-- `net/url.QueryEscape`: like `pathEscape` for the query-component mode,
except a space becomes `+` (byte 43). -/
def queryEscape : GoStr → GoStr
  | [] => []
  | c :: rest =>
    (if c = 32 then [43]
     else if shouldEscapeQueryComponent c then
      [37, upperhexDigit (c / 16), upperhexDigit (c % 16)]
     else [c]) ++ queryEscape rest

/-- `url.Values.Set(key, value)` on the association-list view of the map:
replace the binding of `k` if present, otherwise add it. -/
def valuesSet (vs : List (GoStr × GoStr)) (k v : GoStr) : List (GoStr × GoStr) :=
  match vs with
  | [] => [(k, v)]
  | (k', v') :: rest =>
    if k' = k then (k, v) :: rest else (k', v') :: valuesSet rest k v

/-- Lookup of a key in the values map (`v[key]`, a single value per key here
since only `Set` is ever used). -/
def valuesGet (vs : List (GoStr × GoStr)) (k : GoStr) : Option GoStr :=
  match vs with
  | [] => none
  | (k', v') :: rest => if k' = k then some v' else valuesGet rest k

/-- Bytewise lexicographic string order, as `sort.Strings` compares keys. -/
def lexLe : GoStr → GoStr → Bool
  | [], _ => true
  | _ :: _, [] => false
  | a :: as, b :: bs => if a < b then true else if b < a then false else lexLe as bs

/-- Insertion into a key-sorted list of bindings. -/
def insertSorted (x : GoStr × GoStr) : List (GoStr × GoStr) → List (GoStr × GoStr)
  | [] => [x]
  | y :: ys => if lexLe x.1 y.1 then x :: y :: ys else y :: insertSorted x ys

/-- `sort.Strings(keys)` inside `Values.Encode`: sort the bindings by key. -/
def sortValues (vs : List (GoStr × GoStr)) : List (GoStr × GoStr) :=
  vs.foldr insertSorted []

/-- Join encoded `k=v` pieces with `&` (byte 38). -/
def joinAmp : List GoStr → GoStr
  | [] => []
  | [x] => x
  | x :: xs => x ++ [38] ++ joinAmp xs

/-- `url.Values.Encode`: keys sorted, each binding emitted as
`QueryEscape(k)=QueryEscape(v)`, pieces joined by `&`. -/
def valuesEncode (vs : List (GoStr × GoStr)) : GoStr :=
  joinAmp ((sortValues vs).map fun p => queryEscape p.1 ++ [61] ++ queryEscape p.2)

/-- `Client`: the two configuration strings (the `http.Client` field carries
no data relevant to URL construction). -/
structure Client where
  baseURL : GoStr
  key : GoStr
deriving DecidableEq, Repr

/-- `notification`: the pending-notification record of `bark.go`.
`level` is a `NotificationLevel`, i.e. a string. -/
structure Notification where
  title : GoStr
  body : GoStr
  subtitle : GoStr
  icon : GoStr
  sound : GoStr
  level : GoStr
  isCritical : Bool
deriving DecidableEq, Repr

def LevelActive : GoStr := bytes "active"

def LevelTimeSensitive : GoStr := bytes "timeSensitive"

def LevelPassive : GoStr := bytes "passive"

def LevelCritical : GoStr := bytes "critical"

/-- `defaultTitle = "无名消息"`, as its UTF-8 bytes
`E6 97 A0  E5 90 8D  E6 B6 88  E6 81 AF`. -/
def defaultTitle : GoStr :=
  [230, 151, 160, 229, 144, 141, 230, 182, 136, 230, 129, 175]

/-- `NewClient(baseURL, key)`: empty `baseURL` is replaced by the default
endpoint, then an empty `key` is rejected. -/
def NewClient (baseURL key : GoStr) : Except GoStr Client :=
  let baseURL := if baseURL = [] then bytes "https://api.day.app" else baseURL
  if key = [] then Except.error (bytes "bark key is required")
  else Except.ok { baseURL := baseURL, key := key }

/-- The `Option` modifiers of `bark.go`, reified (each constructor is one of
the six `With...` functions). -/
inductive Opt where
  | WithTitle (title : GoStr)
  | WithSubtitle (subtitle : GoStr)
  | WithIcon (iconURL : GoStr)
  | WithSound (sound : GoStr)
  | WithTimeSensitive
  | WithCriticalNotify
deriving DecidableEq, Repr

/-- The mutation performed by each modifier on the pending notification. -/
def applyOpt (n : Notification) : Opt → Notification
  | .WithTitle t => { n with title := t }
  | .WithSubtitle s => { n with subtitle := s }
  | .WithIcon i => { n with icon := i }
  | .WithSound s => { n with sound := s }
  | .WithTimeSensitive => { n with level := LevelTimeSensitive }
  | .WithCriticalNotify => { n with level := LevelCritical, isCritical := true }

/-- `for _, opt := range opts { opt(n) }`: left-to-right application. -/
def applyOpts (n : Notification) (opts : List Opt) : Notification :=
  opts.foldl applyOpt n

/-- The notification `Send` starts from: `&notification{title: defaultTitle,
body: body}`, all other fields at their zero values. -/
def initNotification (body : GoStr) : Notification :=
  { title := defaultTitle, body := body, subtitle := [], icon := [],
    sound := [], level := [], isCritical := false }

/-- The path portion of `buildNotificationURL`: `urlPath` after the
three-way branch on `title`/`subtitle` emptiness. -/
def buildPath (key : GoStr) (n : Notification) : GoStr :=
  let encodedBody := pathEscape n.body
  if n.title ≠ [] ∧ n.subtitle ≠ [] then
    key ++ [47] ++ pathEscape n.title ++ [47] ++ pathEscape n.subtitle ++ [47] ++ encodedBody
  else if n.title ≠ [] then
    key ++ [47] ++ pathEscape n.title ++ [47] ++ encodedBody
  else
    key ++ [47] ++ encodedBody

/-- The query map of `buildNotificationURL`: `url.Values{}` with the four
conditional `Set` calls in program order. -/
def buildQuery (n : Notification) : List (GoStr × GoStr) :=
  let query : List (GoStr × GoStr) := []
  let query := if n.icon ≠ [] then valuesSet query (bytes "icon") n.icon else query
  let query := if n.sound ≠ [] then valuesSet query (bytes "sound") n.sound else query
  let query := if n.level ≠ [] then valuesSet query (bytes "level") n.level else query
  let query := if n.isCritical then valuesSet query (bytes "level") LevelCritical else query
  query

/-- `(*Client).buildNotificationURL`: `baseURL/urlPath`, followed by
`?` and the encoded query when the query map is non-empty. -/
def buildNotificationURL (c : Client) (n : Notification) : GoStr :=
  let urlPath := buildPath c.key n
  let query := buildQuery n
  let apiURL := c.baseURL ++ [47] ++ urlPath
  if 0 < query.length then apiURL ++ [63] ++ valuesEncode query else apiURL

/-- Outcome of the HTTP stage of `Send`, abstracting
`http.NewRequestWithContext` and `(*http.Client).Do`: request construction
may fail, the transport may fail, or a response with a status code arrives. -/
inductive HTTPOutcome where
  | reqError (cause : GoStr)
  | doError (cause : GoStr)
  | response (statusCode : Nat)
deriving DecidableEq, Repr

/-- The errors `Send` can return, one constructor per `return fmt.Errorf`
site, wrapped causes carried as payloads. -/
inductive SendError where
  | bodyRequired
  | createRequestFailed (cause : GoStr)
  | sendRequestFailed (cause : GoStr)
  | unexpectedStatusCode (code : Nat)
deriving DecidableEq, Repr

/-- `(*Client).Send`: reject an empty body, build the notification from the
default state plus the modifiers, build the URL, then run the HTTP exchange
(`http` maps the requested URL to its outcome) and classify the result;
only a 200 status yields success. -/
def Send (c : Client) (body : GoStr) (opts : List Opt)
    (http : GoStr → HTTPOutcome) : Except SendError Unit :=
  if body = [] then Except.error SendError.bodyRequired
  else
    let n := applyOpts (initNotification body) opts
    let apiURL := buildNotificationURL c n
    match http apiURL with
    | .reqError e => Except.error (SendError.createRequestFailed e)
    | .doError e => Except.error (SendError.sendRequestFailed e)
    | .response code =>
      if code ≠ 200 then Except.error (SendError.unexpectedStatusCode code)
      else Except.ok ()

end Gobark

namespace Gobark

/-! ## Helper lemmas -/

theorem valuesGet_valuesSet (vs : List (GoStr × GoStr)) (k v : GoStr) :
    valuesGet (valuesSet vs k v) k = some v := by
  induction vs with
  | nil => simp [valuesSet, valuesGet]
  | cons p rest ih =>
    obtain ⟨a, b⟩ := p
    by_cases h : a = k
    · simp [valuesSet, valuesGet, h]
    · simp [valuesSet, valuesGet, h, ih]

theorem buildNotificationURL_decomp (c : Client) (n : Notification) :
    ∃ q, buildNotificationURL c n = c.baseURL ++ [47] ++ buildPath c.key n ++ q := by
  by_cases h : 0 < (buildQuery n).length
  · exact ⟨[63] ++ valuesEncode (buildQuery n),
      by simp [buildNotificationURL, h, List.append_assoc]⟩
  · exact ⟨[], by simp [buildNotificationURL, h]⟩

theorem buildPath_startsWith (key : GoStr) (n : Notification) :
    ∃ tail, buildPath key n = key ++ [47] ++ tail := by
  simp only [buildPath]
  split_ifs with h1 h2
  · exact ⟨pathEscape n.title ++ [47] ++ pathEscape n.subtitle ++ [47] ++ pathEscape n.body,
      by simp [List.append_assoc]⟩
  · exact ⟨pathEscape n.title ++ [47] ++ pathEscape n.body, by simp [List.append_assoc]⟩
  · exact ⟨pathEscape n.body, by simp [List.append_assoc]⟩

theorem buildPath_title_ne (key : GoStr) (n : Notification) (h : n.title ≠ []) :
    ∃ tail, buildPath key n = key ++ [47] ++ pathEscape n.title ++ [47] ++ tail := by
  simp only [buildPath]
  split_ifs with h1
  · exact ⟨pathEscape n.subtitle ++ [47] ++ pathEscape n.body, by simp [List.append_assoc]⟩
  · exact ⟨pathEscape n.body, by simp [List.append_assoc]⟩

theorem applyOpts_title_ne : ∀ (opts : List Opt) (n : Notification),
    Opt.WithTitle [] ∉ opts → n.title ≠ [] → (applyOpts n opts).title ≠ []
  | [], _, _, h => h
  | o :: rest, n, hmem, h => by
    have hrest : Opt.WithTitle [] ∉ rest := fun hm => hmem (List.mem_cons_of_mem o hm)
    have hstep : (applyOpt n o).title ≠ [] := by
      cases o with
      | WithTitle t =>
        intro he
        have ht : t = [] := by simpa [applyOpt] using he
        exact hmem (by simp [ht])
      | WithSubtitle s => simpa [applyOpt] using h
      | WithIcon i => simpa [applyOpt] using h
      | WithSound s => simpa [applyOpt] using h
      | WithTimeSensitive => simpa [applyOpt] using h
      | WithCriticalNotify => simpa [applyOpt] using h
    exact applyOpts_title_ne rest (applyOpt n o) hrest hstep

theorem applyOpts_title_empty : ∀ (opts : List Opt) (n : Notification),
    (applyOpts n opts).title = [] → n.title = [] ∨ Opt.WithTitle [] ∈ opts
  | [], _, h => Or.inl h
  | o :: rest, n, h => by
    rcases applyOpts_title_empty rest (applyOpt n o) h with h' | h'
    · cases o with
      | WithTitle t =>
        right
        have ht : t = [] := by simpa [applyOpt] using h'
        simp [ht]
      | WithSubtitle s => exact Or.inl (by simpa [applyOpt] using h')
      | WithIcon i => exact Or.inl (by simpa [applyOpt] using h')
      | WithSound s => exact Or.inl (by simpa [applyOpt] using h')
      | WithTimeSensitive => exact Or.inl (by simpa [applyOpt] using h')
      | WithCriticalNotify => exact Or.inl (by simpa [applyOpt] using h')
    · exact Or.inr (List.mem_cons_of_mem o h')

/-- Every field of `m` other than `title` agrees with `n`. -/
def AgreeExceptTitle (n m : Notification) : Prop :=
  m.body = n.body ∧ m.subtitle = n.subtitle ∧ m.icon = n.icon ∧ m.sound = n.sound
  ∧ m.level = n.level ∧ m.isCritical = n.isCritical

/-- Every field of `m` other than `subtitle` agrees with `n`. -/
def AgreeExceptSubtitle (n m : Notification) : Prop :=
  m.title = n.title ∧ m.body = n.body ∧ m.icon = n.icon ∧ m.sound = n.sound
  ∧ m.level = n.level ∧ m.isCritical = n.isCritical

/-- Every field of `m` other than `icon` agrees with `n`. -/
def AgreeExceptIcon (n m : Notification) : Prop :=
  m.title = n.title ∧ m.body = n.body ∧ m.subtitle = n.subtitle ∧ m.sound = n.sound
  ∧ m.level = n.level ∧ m.isCritical = n.isCritical

/-- Every field of `m` other than `sound` agrees with `n`. -/
def AgreeExceptSound (n m : Notification) : Prop :=
  m.title = n.title ∧ m.body = n.body ∧ m.subtitle = n.subtitle ∧ m.icon = n.icon
  ∧ m.level = n.level ∧ m.isCritical = n.isCritical

/-- Every field of `m` other than `level` agrees with `n`. -/
def AgreeExceptLevel (n m : Notification) : Prop :=
  m.title = n.title ∧ m.body = n.body ∧ m.subtitle = n.subtitle ∧ m.icon = n.icon
  ∧ m.sound = n.sound ∧ m.isCritical = n.isCritical

/-- Every field of `m` other than `level` and `isCritical` agrees with `n`. -/
def AgreeExceptLevelAndFlag (n m : Notification) : Prop :=
  m.title = n.title ∧ m.body = n.body ∧ m.subtitle = n.subtitle ∧ m.icon = n.icon
  ∧ m.sound = n.sound

end Gobark

namespace Gobark

/-! ## Claim theorems -/

/-- C1 (code_bug evaluation): at the failing input — client
`NewClient("https://api.day.app", "test-key")`, body `"test message"`, no
modifiers — the code builds the three-segment target
`https://api.day.app/test-key/%E6%97%A0%E5%90%8D%E6%B6%88%E6%81%AF/test%20message`
(the default title `"无名消息"` that `Send` pre-sets becomes a path segment),
not the two-segment target `https://api.day.app/test-key/test%20message` that
the claim and the repository's own test `TestBuildNotificationURL` expect. -/
theorem c1_simple_notification_eval :
    buildNotificationURL { baseURL := bytes "https://api.day.app", key := bytes "test-key" }
        (applyOpts (initNotification (bytes "test message")) [])
      = bytes "https://api.day.app/test-key/%E6%97%A0%E5%90%8D%E6%B6%88%E6%81%AF/test%20message"
  ∧ buildNotificationURL { baseURL := bytes "https://api.day.app", key := bytes "test-key" }
        (applyOpts (initNotification (bytes "test message")) [])
      ≠ bytes "https://api.day.app/test-key/test%20message" := by
  constructor <;> decide

/-- C2 (code_bug evaluation): at the failing input — title `"Special Chars"`,
body `"Special chars: !@#$%^&*()"` — `PathEscape` does encode space as `%20`,
`!` as `%21` and newline as `%0A`, but leaves `:` `@` `$` `&` unescaped
(byte 58, `:`, survives verbatim although it is not alphanumeric), so the
segments are not the fully percent-encoded strings the claim and the
repository's own test expect (`%3A` for `:` etc.). -/
theorem c2_special_chars_eval :
    pathEscape (bytes "Special Chars") = bytes "Special%20Chars"
  ∧ pathEscape (bytes "Special chars: !@#$%^&*()")
      = bytes "Special%20chars:%20%21@%23$%25%5E&%2A%28%29"
  ∧ (58 : Nat) ∈ pathEscape (bytes "Special chars: !@#$%^&*()")
  ∧ isAlnumByte 58 = false
  ∧ pathEscape (bytes "Special chars: !@#$%^&*()")
      ≠ bytes "Special%20chars%3A%20%21%40%23%24%25%5E%26%2A%28%29"
  ∧ pathEscape [10] = bytes "%0A"
  ∧ pathEscape [32] = bytes "%20"
  ∧ pathEscape [33] = bytes "%21" := by
  refine ⟨by decide, by decide, by decide, by decide, by decide, by decide, by decide, by decide⟩

/-- C3: whenever `isCritical` is true the built query maps `level` to the
literal `"critical"`, whatever `level` holds; in particular the modifier list
`[WithTimeSensitive, WithCriticalNotify]` yields `level=critical` (shown both
on the query map and on the complete target string). -/
theorem c3_critical_level_override :
    (∀ n : Notification, n.isCritical = true →
        valuesGet (buildQuery n) (bytes "level") = some LevelCritical)
  ∧ valuesGet (buildQuery (applyOpts (initNotification (bytes "test message"))
        [Opt.WithTimeSensitive, Opt.WithCriticalNotify])) (bytes "level")
      = some (bytes "critical")
  ∧ buildNotificationURL { baseURL := bytes "https://api.day.app", key := bytes "test-key" }
        (applyOpts (initNotification (bytes "test message"))
          [Opt.WithTimeSensitive, Opt.WithCriticalNotify])
      = bytes "https://api.day.app/test-key/%E6%97%A0%E5%90%8D%E6%B6%88%E6%81%AF/test%20message?level=critical" := by
  refine ⟨fun n h => ?_, by decide, by decide⟩
  simp [buildQuery, h, valuesGet_valuesSet]

/-- C3 witness: a concrete critical notification whose query maps `level`
to `"critical"`. -/
theorem c3_critical_level_override_witness :
    valuesGet
      (buildQuery
        { title := defaultTitle, body := bytes "m", subtitle := [], icon := [],
          sound := [], level := LevelTimeSensitive, isCritical := true })
      (bytes "level") = some LevelCritical :=
  c3_critical_level_override.1 _ rfl

/-- C4: with an empty title the built target ignores the subtitle entirely —
it equals the target built with the subtitle also empty, and the path is the
two-segment `key/escape(body)`. -/
theorem c4_subtitle_dropped (c : Client) (n : Notification)
    (ht : n.title = []) (_hs : n.subtitle ≠ []) :
    buildNotificationURL c n = buildNotificationURL c { n with subtitle := [] }
  ∧ buildPath c.key n = c.key ++ [47] ++ pathEscape n.body := by
  have hpath : buildPath c.key n = c.key ++ [47] ++ pathEscape n.body := by
    simp [buildPath, ht]
  have hpath2 : buildPath c.key { n with subtitle := [] }
      = c.key ++ [47] ++ pathEscape n.body := by
    simp [buildPath, ht]
  have hquery : buildQuery { n with subtitle := [] } = buildQuery n := rfl
  refine ⟨?_, hpath⟩
  simp [buildNotificationURL, hpath, hpath2, hquery]

/-- C4 witness: concrete notification with empty title and non-empty
subtitle builds the same target as with the subtitle cleared. -/
theorem c4_subtitle_dropped_witness :
    buildNotificationURL { baseURL := bytes "https://api.day.app", key := bytes "test-key" }
        { title := [], body := bytes "test message", subtitle := bytes "Test Subtitle",
          icon := [], sound := [], level := [], isCritical := false }
      = buildNotificationURL { baseURL := bytes "https://api.day.app", key := bytes "test-key" }
        { title := [], body := bytes "test message", subtitle := [],
          icon := [], sound := [], level := [], isCritical := false } :=
  (c4_subtitle_dropped
    { baseURL := bytes "https://api.day.app", key := bytes "test-key" }
    { title := [], body := bytes "test message", subtitle := bytes "Test Subtitle",
      icon := [], sound := [], level := [], isCritical := false }
    rfl (by decide)).1

/-- C5: `NewClient` fails (with the configuration error) exactly on an empty
key; an empty base URL is replaced by the default endpoint
`https://api.day.app`, a non-empty one is kept verbatim, and the key is
stored unchanged. -/
theorem c5_newClient_contract :
    (∀ baseURL : GoStr,
        NewClient baseURL [] = Except.error (bytes "bark key is required"))
  ∧ (∀ key : GoStr, key ≠ [] →
        NewClient [] key
          = Except.ok { baseURL := bytes "https://api.day.app", key := key })
  ∧ (∀ baseURL key : GoStr, baseURL ≠ [] → key ≠ [] →
        NewClient baseURL key = Except.ok { baseURL := baseURL, key := key }) := by
  refine ⟨fun b => by simp [NewClient],
          fun k hk => by simp [NewClient, hk],
          fun b k hb hk => by simp [NewClient, hb, hk]⟩

/-- C5 witness: a concrete non-empty base URL and key are kept verbatim. -/
theorem c5_newClient_contract_witness :
    NewClient (bytes "https://custom.bark.server") (bytes "test-key")
      = Except.ok { baseURL := bytes "https://custom.bark.server",
                    key := bytes "test-key" } :=
  c5_newClient_contract.2.2 (bytes "https://custom.bark.server") (bytes "test-key")
    (by decide) (by decide)

/-- C6: `Send` with an empty body returns the validation error whatever the
client, the modifiers, and the behaviour of the HTTP layer — the result does
not depend on the `http` function, so no request is built or issued. -/
theorem c6_empty_body_no_io (c : Client) (opts : List Opt)
    (http : GoStr → HTTPOutcome) :
    Send c [] opts http = Except.error SendError.bodyRequired := by
  simp [Send]

/-- C7: once a response arrives, `Send` succeeds exactly on status 200;
every other status yields `unexpectedStatusCode` carrying that code; a
transport failure yields the distinct `sendRequestFailed` error wrapping the
cause (and request-construction failure yields `createRequestFailed`). -/
theorem c7_status_classification (c : Client) (body : GoStr) (opts : List Opt)
    (hb : body ≠ []) :
    (∀ code : Nat,
        Send c body opts (fun _ => HTTPOutcome.response code) = Except.ok ()
          ↔ code = 200)
  ∧ (∀ code : Nat, code ≠ 200 →
        Send c body opts (fun _ => HTTPOutcome.response code)
          = Except.error (SendError.unexpectedStatusCode code))
  ∧ (∀ e : GoStr, Send c body opts (fun _ => HTTPOutcome.doError e)
        = Except.error (SendError.sendRequestFailed e))
  ∧ (∀ e : GoStr, Send c body opts (fun _ => HTTPOutcome.reqError e)
        = Except.error (SendError.createRequestFailed e))
  ∧ (∀ (e : GoStr) (code : Nat),
        SendError.sendRequestFailed e ≠ SendError.unexpectedStatusCode code) := by
  refine ⟨?_, ?_, ?_, ?_, ?_⟩
  · intro code
    by_cases h : code = 200
    · simp [Send, hb, h]
    · simp [Send, hb, h]
  · intro code h
    simp [Send, hb, h]
  · intro e
    simp [Send, hb]
  · intro e
    simp [Send, hb]
  · intro e code
    simp

/-- C7 witness: a concrete 404 response yields the status-code error. -/
theorem c7_status_classification_witness :
    Send { baseURL := bytes "https://api.day.app", key := bytes "test-key" }
        (bytes "hello") [] (fun _ => HTTPOutcome.response 404)
      = Except.error (SendError.unexpectedStatusCode 404) :=
  (c7_status_classification
      { baseURL := bytes "https://api.day.app", key := bytes "test-key" }
      (bytes "hello") [] (by decide)).2.1 404 (by decide)

/-- C8 counterexample: `WithCriticalNotify` does not mutate exactly one
field — applied to the initial notification it changes both `level` and
`isCritical`. -/
theorem c8_criticalNotify_two_fields :
    (applyOpt (initNotification (bytes "x")) Opt.WithCriticalNotify).level
        ≠ (initNotification (bytes "x")).level
  ∧ (applyOpt (initNotification (bytes "x")) Opt.WithCriticalNotify).isCritical
        ≠ (initNotification (bytes "x")).isCritical := by
  constructor <;> decide

/-- C8 (amended): each of `WithTitle`, `WithSubtitle`, `WithIcon`,
`WithSound`, `WithTimeSensitive` sets its one field and leaves every other
field unchanged; `WithCriticalNotify` sets exactly `level` (to critical) and
`isCritical`, leaving every other field unchanged; modifiers are applied
strictly left-to-right, so a modifier appended at the end acts last and a
later `WithTitle` overrides an earlier one. -/
theorem c8_modifier_frame :
    (∀ (n : Notification) (t : GoStr), (applyOpt n (Opt.WithTitle t)).title = t
        ∧ AgreeExceptTitle n (applyOpt n (Opt.WithTitle t)))
  ∧ (∀ (n : Notification) (s : GoStr), (applyOpt n (Opt.WithSubtitle s)).subtitle = s
        ∧ AgreeExceptSubtitle n (applyOpt n (Opt.WithSubtitle s)))
  ∧ (∀ (n : Notification) (i : GoStr), (applyOpt n (Opt.WithIcon i)).icon = i
        ∧ AgreeExceptIcon n (applyOpt n (Opt.WithIcon i)))
  ∧ (∀ (n : Notification) (s : GoStr), (applyOpt n (Opt.WithSound s)).sound = s
        ∧ AgreeExceptSound n (applyOpt n (Opt.WithSound s)))
  ∧ (∀ n : Notification, (applyOpt n Opt.WithTimeSensitive).level = LevelTimeSensitive
        ∧ AgreeExceptLevel n (applyOpt n Opt.WithTimeSensitive))
  ∧ (∀ n : Notification, (applyOpt n Opt.WithCriticalNotify).level = LevelCritical
        ∧ (applyOpt n Opt.WithCriticalNotify).isCritical = true
        ∧ AgreeExceptLevelAndFlag n (applyOpt n Opt.WithCriticalNotify))
  ∧ (∀ (n : Notification) (opts : List Opt) (o : Opt),
        applyOpts n (opts ++ [o]) = applyOpt (applyOpts n opts) o)
  ∧ (∀ (n : Notification) (opts : List Opt) (t t2 : GoStr),
        (applyOpts n (opts ++ [Opt.WithTitle t, Opt.WithTitle t2])).title = t2) := by
  refine ⟨fun n t => ⟨rfl, rfl, rfl, rfl, rfl, rfl, rfl⟩,
          fun n s => ⟨rfl, rfl, rfl, rfl, rfl, rfl, rfl⟩,
          fun n i => ⟨rfl, rfl, rfl, rfl, rfl, rfl, rfl⟩,
          fun n s => ⟨rfl, rfl, rfl, rfl, rfl, rfl, rfl⟩,
          fun n => ⟨rfl, rfl, rfl, rfl, rfl, rfl, rfl⟩,
          fun n => ⟨rfl, rfl, rfl, rfl, rfl, rfl, rfl⟩,
          fun n opts o => by simp [applyOpts, List.foldl_append],
          fun n opts t t2 => by simp [applyOpts, List.foldl_append, applyOpt]⟩

/-- C9: `Send` starts the pending notification with the non-empty default
title `"无名消息"`, so when no modifier is `WithTitle("")` the final title is
non-empty and the target carries a title segment right after the key; and
the title can only end up empty if `WithTitle("")` occurs in the list. -/
theorem c9_default_title_invariant (c : Client) (body : GoStr) (opts : List Opt)
    (_hb : body ≠ []) (hopts : Opt.WithTitle [] ∉ opts) :
    (applyOpts (initNotification body) opts).title ≠ []
  ∧ (∃ rest, buildNotificationURL c (applyOpts (initNotification body) opts)
      = c.baseURL ++ [47] ++ c.key ++ [47]
        ++ pathEscape (applyOpts (initNotification body) opts).title ++ [47] ++ rest)
  ∧ (∀ opts2 : List Opt, (applyOpts (initNotification body) opts2).title = []
      → Opt.WithTitle [] ∈ opts2) := by
  have htitle : (applyOpts (initNotification body) opts).title ≠ [] :=
    applyOpts_title_ne opts (initNotification body) hopts
      (by simp [initNotification, defaultTitle])
  refine ⟨htitle, ?_, ?_⟩
  · obtain ⟨q, hq⟩ := buildNotificationURL_decomp c (applyOpts (initNotification body) opts)
    obtain ⟨tail, htl⟩ := buildPath_title_ne c.key (applyOpts (initNotification body) opts) htitle
    exact ⟨tail ++ q, by rw [hq, htl]; simp [List.append_assoc]⟩
  · intro opts2 h2
    rcases applyOpts_title_empty opts2 (initNotification body) h2 with h' | h'
    · exact absurd h' (by simp [initNotification, defaultTitle])
    · exact h'

/-- C9 witness: with body `"hello"` and a modifier list not containing
`WithTitle("")`, the final title is non-empty. -/
theorem c9_default_title_invariant_witness :
    (applyOpts (initNotification (bytes "hello"))
        [Opt.WithSound (bytes "bell")]).title ≠ [] :=
  (c9_default_title_invariant
      { baseURL := bytes "https://api.day.app", key := bytes "test-key" }
      (bytes "hello") [Opt.WithSound (bytes "bell")]
      (by decide) (by decide)).1

/-- C10: for every client and notification the target starts with
`baseURL + "/" + key + "/"` with both configuration strings inserted
verbatim (no escaping), whatever bytes the key contains. -/
theorem c10_key_verbatim (c : Client) (n : Notification) :
    ∃ rest, buildNotificationURL c n = c.baseURL ++ [47] ++ c.key ++ [47] ++ rest := by
  obtain ⟨q, hq⟩ := buildNotificationURL_decomp c n
  obtain ⟨tail, htl⟩ := buildPath_startsWith c.key n
  exact ⟨tail ++ q, by rw [hq, htl]; simp [List.append_assoc]⟩

end Gobark
